import Mathlib

/-!
Shallow embedding of the Warehouse-API stock consistency core
(src/backend/api/views.py, src/backend/api/permissions.py,
src/backend/api/serializers.py, src/backend/warehouse/models.py).

The persistent state (the Django database) is modelled by the `DB`
structure: the StockMovement ledger, the StockTransfer records, the set
of existing StockBalance rows together with their quantities, the
product and warehouse catalogues and the AuditLog entries.  Each API
endpoint relevant to the claims is translated into a Lean function
`DB -> arguments -> Res × DB` that mirrors the control flow of the
corresponding `post`/`put`/`delete` handler statement by statement.
Products and warehouses are created by separate endpoints that never
touch balances, ledgers or transfers, so runs start from `initDB ps ws`
with an arbitrary catalogue and empty stock state.
-/

namespace WarehouseAPI

/-- Roles of the custom user model (warehouse/models.py, User.ROLE_CHOICES). -/
inductive Role where
  | admin
  | warehouse_manager
  | clerk
  | logistician
  | analyst
deriving DecidableEq, Repr

/-- StockMovement.OPERATION_CHOICES (warehouse/models.py): receipt, issue, transfer. -/
inductive Operation where
  | opIn
  | opOut
  | opTransfer
deriving DecidableEq, Repr

/-- Outcome of an API handler, one constructor per distinct HTTP result kind. -/
inductive Res where
  | success
  | permissionDenied
  | validationError
  | insufficientStock
  | notFound
deriving DecidableEq, Repr

/-- Product row: id, owning warehouse (the code guards against a missing
warehouse in LowStockView, hence an Option) and min_stock threshold. -/
structure Product where
  pid : Nat
  warehouse : Option Nat
  min_stock : Nat
deriving DecidableEq, Repr

/-- StockMovement ledger row (warehouse/models.py). -/
structure StockMovement where
  product : Nat
  warehouse : Nat
  operation : Operation
  quantity : Int
deriving DecidableEq, Repr

/-- StockTransfer row (warehouse/models.py). -/
structure StockTransfer where
  product : Nat
  from_warehouse : Nat
  to_warehouse : Nat
  quantity : Int
deriving DecidableEq, Repr

/-- The database state.  `rows` lists the existing StockBalance rows as
(product, warehouse) pairs, unique by the unique_together constraint, and
`qty` gives the quantity stored in an existing row. -/
structure DB where
  products : List Product
  warehouses : List Nat
  movements : List StockMovement
  transfers : List StockTransfer
  rows : List (Nat × Nat)
  qty : Nat × Nat → Int
  audits : List String

/-- Initial state: a catalogue of products and warehouses, no stock data. -/
def initDB (ps : List Product) (ws : List Nat) : DB :=
  { products := ps, warehouses := ws, movements := [], transfers := [],
    rows := [], qty := fun _ => 0, audits := [] }

/-- The balance the views read:
`StockBalance.objects.filter(product=p, warehouse=w).aggregate(total=Sum(quantity))[total] or 0`.
By the unique_together constraint this is the quantity of the row when it
exists and 0 otherwise. -/
def getBal (db : DB) (p w : Nat) : Int :=
  if (p, w) ∈ db.rows then db.qty (p, w) else 0

/-- Pointwise update of the quantity function at one key. -/
def setQty (f : Nat × Nat → Int) (k : Nat × Nat) (v : Int) : Nat × Nat → Int :=
  fun k' => if k' = k then v else f k'

/-- `StockBalance.objects.get_or_create(product=p, warehouse=w, defaults=quantity 0)`:
creates the row with quantity 0 when it is absent. -/
def getOrCreate (db : DB) (p w : Nat) : DB :=
  if (p, w) ∈ db.rows then db
  else { db with rows := (p, w) :: db.rows, qty := setQty db.qty (p, w) 0 }

/-- `balance.save()`: persists one in-memory balance value into its row. -/
def writeBal (db : DB) (k : Nat × Nat) (v : Int) : DB :=
  { db with qty := setQty db.qty k v }

/-- Existence check performed by the PrimaryKeyRelatedField of the serializers. -/
def productExists (db : DB) (p : Nat) : Prop :=
  ∃ prod ∈ db.products, prod.pid = p

instance (db : DB) (p : Nat) : Decidable (productExists db p) :=
  inferInstanceAs (Decidable (∃ prod ∈ db.products, prod.pid = p))

/-- StockMovementSerializer validity: product and warehouse must exist and the
model-level MinValueValidator(1) bounds the quantity. -/
def movementValid (db : DB) (p w : Nat) (q : Int) : Prop :=
  productExists db p ∧ w ∈ db.warehouses ∧ 1 ≤ q

instance (db : DB) (p w : Nat) (q : Int) : Decidable (movementValid db p w q) :=
  inferInstanceAs (Decidable (_ ∧ _ ∧ _))

/-- StockTransferSerializer validity: product and both warehouses must exist
and the quantity is at least 1.  The serializer has no validate method, so
nothing compares from_warehouse with to_warehouse. -/
def transferValid (db : DB) (p fromW toW : Nat) (q : Int) : Prop :=
  productExists db p ∧ fromW ∈ db.warehouses ∧ toW ∈ db.warehouses ∧ 1 ≤ q

instance (db : DB) (p fromW toW : Nat) (q : Int) :
    Decidable (transferValid db p fromW toW q) :=
  inferInstanceAs (Decidable (_ ∧ _ ∧ _ ∧ _))

/-- Roles the stock income/outcome endpoint accepts (views.py line 527). -/
def stockRoles : List Role := [.admin, .warehouse_manager, .clerk]

/-- Roles the transfer endpoints accept (views.py lines 713, 728, 782, 798). -/
def transferRoles : List Role := [.admin, .warehouse_manager, .logistician]

/-- The contribution of one ledger entry operation to the accounted net
quantity: plus for in, minus for out, nothing for transfer. -/
def opDelta (op : Operation) (q : Int) : Int :=
  match op with
  | .opIn => q
  | .opOut => -q
  | .opTransfer => 0

/-- The signed balance change of one movement operation as performed by the
income/outcome handler (plus for in, minus for out, nothing for transfer). -/
def applyOp (op : Operation) (v q : Int) : Int :=
  match op with
  | .opIn => v + q
  | .opOut => v - q
  | .opTransfer => v

/-- StockIncomeOutcomeView.post (views.py lines 525-570): role check, then
serializer validation, then for an out operation the sufficiency check
against the aggregated balance, then StockMovement save, get_or_create of
the StockBalance row and the signed quantity update. -/
def stockIncomeOutcome (db : DB) (role : Role) (p w : Nat) (op : Operation)
    (q : Int) : Res × DB :=
  if role ∈ stockRoles then
    if movementValid db p w q then
      if op = .opOut ∧ getBal db p w < q then
        (.insufficientStock, db)
      else
        let db1 := { db with movements := db.movements ++ [⟨p, w, op, q⟩] }
        let db2 := getOrCreate db1 p w
        let v := db2.qty (p, w)
        (.success, writeBal db2 (p, w) (applyOp op v q))
    else (.validationError, db)
  else (.permissionDenied, db)

/-- StockTransferListCreateView.post (views.py lines 727-772): role check,
serializer validation (which never compares the two warehouses), the
sufficiency check against the source balance, then StockTransfer save,
get_or_create of both balance rows, and the two quantity writes.  The two
balance objects are loaded before either save, so a transfer with
from_warehouse = to_warehouse overwrites the debited value with the
credited one. -/
def stockTransferCreate (db : DB) (role : Role) (p fromW toW : Nat)
    (q : Int) : Res × DB :=
  if role ∈ transferRoles then
    if transferValid db p fromW toW q then
      if getBal db p fromW < q then
        (.insufficientStock, db)
      else
        let db1 := { db with transfers := db.transfers ++ [⟨p, fromW, toW, q⟩] }
        let db2 := getOrCreate db1 p fromW
        let vFrom := db2.qty (p, fromW)
        let db3 := getOrCreate db2 p toW
        let vTo := db3.qty (p, toW)
        let db4 := writeBal db3 (p, fromW) (vFrom - q)
        (.success, writeBal db4 (p, toW) (vTo + q))
    else (.validationError, db)
  else (.permissionDenied, db)

/-- StockTransferDetailView.put (views.py lines 797-816): role check, 404 on a
missing transfer, serializer validation, then the serializer saves the new
field values on the transfer record.  No StockBalance is touched. -/
def stockTransferUpdate (db : DB) (role : Role) (idx : Nat) (p fromW toW : Nat)
    (q : Int) : Res × DB :=
  if role ∈ transferRoles then
    match db.transfers.get? idx with
    | none => (.notFound, db)
    | some _ =>
      if transferValid db p fromW toW q then
        (.success, { db with transfers := db.transfers.set idx ⟨p, fromW, toW, q⟩ })
      else (.validationError, db)
  else (.permissionDenied, db)

/-- StockTransferDetailView.delete (views.py lines 818-833): admin only, 404 on
a missing transfer, then the transfer record is deleted.  No StockBalance is
touched. -/
def stockTransferDelete (db : DB) (role : Role) (idx : Nat) : Res × DB :=
  if role = .admin then
    match db.transfers.get? idx with
    | none => (.notFound, db)
    | some _ => (.success, { db with transfers := db.transfers.eraseIdx idx })
  else (.permissionDenied, db)

/-- WarehouseDetailView.delete (views.py lines 379-395): admin only, 404 on a
missing warehouse, then `warehouse.delete()` with the CASCADE rules of the
models: products of the warehouse, and movements, transfers and balance rows
referring to the warehouse or to a removed product, are deleted with it.
No AuditLog entry is written on this path. -/
def warehouseDelete (db : DB) (role : Role) (w : Nat) : Res × DB :=
  if role = .admin then
    if w ∈ db.warehouses then
      let removed := (db.products.filter (fun prod => prod.warehouse = some w)).map Product.pid
      (.success,
        { db with
          warehouses := db.warehouses.erase w
          products := db.products.filter (fun prod => prod.warehouse ≠ some w)
          movements := db.movements.filter
            (fun m => m.warehouse ≠ w ∧ m.product ∉ removed)
          transfers := db.transfers.filter
            (fun t => t.from_warehouse ≠ w ∧ t.to_warehouse ≠ w ∧ t.product ∉ removed)
          rows := db.rows.filter (fun r => r.2 ≠ w ∧ r.1 ∉ removed) })
    else (.notFound, db)
  else (.permissionDenied, db)

/-- LowStockView.get (views.py lines 667-702): iterate the products, optionally
filtered by warehouse_id, skip products without a warehouse, and report a
product when the aggregated balance at its own warehouse is strictly below
min_stock.  Returns the reported product ids. -/
def lowStockScan (db : DB) (wf : Option Nat) : List Nat :=
  (db.products.filter (fun prod =>
      match wf with
      | none => true
      | some w0 => prod.warehouse == some w0)).filterMap
    (fun prod =>
      match prod.warehouse with
      | none => none
      | some w =>
        if getBal db prod.pid w < (prod.min_stock : Int) then some prod.pid
        else none)

/-- ProductViewSet.low_stock (views.py lines 178-195): products having some
StockBalance row, at any warehouse, with quantity at most min_stock,
optionally filtered by the product warehouse. -/
def productLowStock (db : DB) (wf : Option Nat) : List Nat :=
  ((db.products.filter (fun prod =>
      db.rows.any (fun r => r.1 == prod.pid && db.qty r ≤ (prod.min_stock : Int)))).filter
    (fun prod =>
      match wf with
      | none => true
      | some w0 => prod.warehouse == some w0)).map Product.pid

/-- Sum of the quantities of the ledger entries with a given operation for one
(product, warehouse) pair, over a list of movements. -/
def movementSumL (l : List StockMovement) (p w : Nat) (op : Operation) : Int :=
  ((l.filter (fun m =>
      decide (m.product = p ∧ m.warehouse = w ∧ m.operation = op))).map
    StockMovement.quantity).sum

/-- Sum of the quantities of the ledger entries with a given operation for one
(product, warehouse) pair. -/
def movementSum (db : DB) (p w : Nat) (op : Operation) : Int :=
  movementSumL db.movements p w op

/-- Sum of the transfer quantities out of warehouse w for product p, over a
list of transfers. -/
def transferOutSumL (l : List StockTransfer) (p w : Nat) : Int :=
  ((l.filter (fun t => decide (t.product = p ∧ t.from_warehouse = w))).map
    StockTransfer.quantity).sum

/-- Sum of the transfer quantities out of warehouse w for product p. -/
def transferOutSum (db : DB) (p w : Nat) : Int :=
  transferOutSumL db.transfers p w

/-- Sum of the transfer quantities into warehouse w for product p, over a
list of transfers. -/
def transferInSumL (l : List StockTransfer) (p w : Nat) : Int :=
  ((l.filter (fun t => decide (t.product = p ∧ t.to_warehouse = w))).map
    StockTransfer.quantity).sum

/-- Sum of the transfer quantities into warehouse w for product p. -/
def transferInSum (db : DB) (p w : Nat) : Int :=
  transferInSumL db.transfers p w

/-- The net quantity the ledger and transfer history accounts for at one
(product, warehouse) pair: income minus outcome, minus transfers out, plus
transfers in. -/
def ledgerNet (db : DB) (p w : Nat) : Int :=
  movementSum db p w .opIn - movementSum db p w .opOut
    - transferOutSum db p w + transferInSum db p w

/-- Invariant: no StockBalance quantity is negative. -/
def NonNeg (db : DB) : Prop :=
  ∀ p w, 0 ≤ getBal db p w

/-- Invariant: every balance agrees with the ledger and transfer history. -/
def Consistent (db : DB) : Prop :=
  ∀ p w, getBal db p w = ledgerNet db p w

/-- One step of the API: any of the five mutating stock endpoints the claims
quantify over, with arbitrary requester role and arguments. -/
inductive StepAll : DB → DB → Prop where
  | incomeOutcome (db : DB) (role : Role) (p w : Nat) (op : Operation) (q : Int) :
      StepAll db (stockIncomeOutcome db role p w op q).2
  | transferCreate (db : DB) (role : Role) (p fromW toW : Nat) (q : Int) :
      StepAll db (stockTransferCreate db role p fromW toW q).2
  | transferUpdate (db : DB) (role : Role) (idx : Nat) (p fromW toW : Nat) (q : Int) :
      StepAll db (stockTransferUpdate db role idx p fromW toW q).2
  | transferDelete (db : DB) (role : Role) (idx : Nat) :
      StepAll db (stockTransferDelete db role idx).2
  | warehouseDel (db : DB) (role : Role) (w : Nat) :
      StepAll db (warehouseDelete db role w).2

/-- States reachable from an initial catalogue through the API operations. -/
def ReachableAll (db : DB) : Prop :=
  ∃ ps ws, Relation.ReflTransGen StepAll (initDB ps ws) db

theorem setQty_self (f : Nat × Nat → Int) (k : Nat × Nat) (v : Int) :
    setQty f k v k = v := by
  simp [setQty]

theorem setQty_ne (f : Nat × Nat → Int) (k : Nat × Nat) (v : Int)
    (k' : Nat × Nat) (h : k' ≠ k) : setQty f k v k' = f k' := by
  simp [setQty, h]

theorem getOrCreate_movements (db : DB) (p w : Nat) :
    (getOrCreate db p w).movements = db.movements := by
  unfold getOrCreate; split <;> rfl

theorem getOrCreate_transfers (db : DB) (p w : Nat) :
    (getOrCreate db p w).transfers = db.transfers := by
  unfold getOrCreate; split <;> rfl

theorem getOrCreate_products (db : DB) (p w : Nat) :
    (getOrCreate db p w).products = db.products := by
  unfold getOrCreate; split <;> rfl

theorem getOrCreate_warehouses (db : DB) (p w : Nat) :
    (getOrCreate db p w).warehouses = db.warehouses := by
  unfold getOrCreate; split <;> rfl

theorem getOrCreate_rows_mem (db : DB) (p w : Nat) :
    (p, w) ∈ (getOrCreate db p w).rows := by
  unfold getOrCreate; split
  · assumption
  · exact List.mem_cons_self _ _

theorem getOrCreate_rows_mono (db : DB) (p w : Nat) (k : Nat × Nat)
    (h : k ∈ db.rows) : k ∈ (getOrCreate db p w).rows := by
  unfold getOrCreate; split
  · exact h
  · exact List.mem_cons_of_mem _ h

theorem getBal_getOrCreate (db : DB) (p w p' w' : Nat) :
    getBal (getOrCreate db p w) p' w' = getBal db p' w' := by
  unfold getBal getOrCreate
  split
  · rfl
  · rename_i hnotin
    by_cases hk : (p', w') = (p, w)
    · rw [hk]
      simp [setQty, hnotin]
    · simp [List.mem_cons, hk, setQty]

theorem getOrCreate_qty_self (db : DB) (p w : Nat) :
    (getOrCreate db p w).qty (p, w) = getBal db p w := by
  unfold getOrCreate getBal
  split
  · rfl
  · exact setQty_self _ _ _

theorem writeBal_movements (db : DB) (k : Nat × Nat) (v : Int) :
    (writeBal db k v).movements = db.movements := rfl

theorem writeBal_transfers (db : DB) (k : Nat × Nat) (v : Int) :
    (writeBal db k v).transfers = db.transfers := rfl

theorem writeBal_rows (db : DB) (k : Nat × Nat) (v : Int) :
    (writeBal db k v).rows = db.rows := rfl

theorem getBal_writeBal_self (db : DB) (p w : Nat) (v : Int)
    (hmem : (p, w) ∈ db.rows) :
    getBal (writeBal db (p, w) v) p w = v := by
  unfold getBal writeBal
  simp only []
  rw [if_pos hmem, setQty_self]

theorem getBal_writeBal_ne (db : DB) (k : Nat × Nat) (v : Int) (p' w' : Nat)
    (h : (p', w') ≠ k) :
    getBal (writeBal db k v) p' w' = getBal db p' w' := by
  unfold getBal writeBal
  simp only []
  rw [setQty_ne _ _ _ _ h]

theorem getBal_congr (db db' : DB) (hrows : db'.rows = db.rows)
    (hqty : db'.qty = db.qty) (p w : Nat) : getBal db' p w = getBal db p w := by
  unfold getBal; rw [hrows, hqty]

theorem movementSumL_append (l : List StockMovement) (m : StockMovement)
    (p w : Nat) (op : Operation) :
    movementSumL (l ++ [m]) p w op
      = movementSumL l p w op
        + (if m.product = p ∧ m.warehouse = w ∧ m.operation = op
            then m.quantity else 0) := by
  unfold movementSumL
  rw [List.filter_append, List.map_append, List.sum_append]
  congr 1
  by_cases h : m.product = p ∧ m.warehouse = w ∧ m.operation = op
  · simp [List.filter, h]
  · simp [List.filter, h]

theorem transferOutSumL_append (l : List StockTransfer) (t : StockTransfer)
    (p w : Nat) :
    transferOutSumL (l ++ [t]) p w
      = transferOutSumL l p w
        + (if t.product = p ∧ t.from_warehouse = w then t.quantity else 0) := by
  unfold transferOutSumL
  rw [List.filter_append, List.map_append, List.sum_append]
  congr 1
  by_cases h : t.product = p ∧ t.from_warehouse = w
  · simp [List.filter, h]
  · simp [List.filter, h]

theorem transferInSumL_append (l : List StockTransfer) (t : StockTransfer)
    (p w : Nat) :
    transferInSumL (l ++ [t]) p w
      = transferInSumL l p w
        + (if t.product = p ∧ t.to_warehouse = w then t.quantity else 0) := by
  unfold transferInSumL
  rw [List.filter_append, List.map_append, List.sum_append]
  congr 1
  by_cases h : t.product = p ∧ t.to_warehouse = w
  · simp [List.filter, h]
  · simp [List.filter, h]

theorem ledgerNet_congr (db db' : DB) (hm : db'.movements = db.movements)
    (ht : db'.transfers = db.transfers) (p w : Nat) :
    ledgerNet db' p w = ledgerNet db p w := by
  unfold ledgerNet movementSum transferOutSum transferInSum
  rw [hm, ht]

/-- Full behaviour of the income/outcome handler on the success path. -/
theorem stockIncomeOutcome_success (db : DB) (role : Role) (p w : Nat)
    (op : Operation) (q : Int)
    (hrole : role ∈ stockRoles) (hvalid : movementValid db p w q)
    (hns : ¬(op = .opOut ∧ getBal db p w < q)) :
    (stockIncomeOutcome db role p w op q).1 = .success ∧
    (stockIncomeOutcome db role p w op q).2.movements
        = db.movements ++ [⟨p, w, op, q⟩] ∧
    (stockIncomeOutcome db role p w op q).2.transfers = db.transfers ∧
    getBal (stockIncomeOutcome db role p w op q).2 p w
        = applyOp op (getBal db p w) q ∧
    ∀ p' w', ¬(p' = p ∧ w' = w) →
      getBal (stockIncomeOutcome db role p w op q).2 p' w' = getBal db p' w' := by
  have hbase : getBal { db with movements := db.movements ++ [⟨p, w, op, q⟩] }
      = getBal db := rfl
  simp only [stockIncomeOutcome, if_pos hrole, if_pos hvalid, if_neg hns]
  refine ⟨trivial, ?_, ?_, ?_, ?_⟩
  · rw [writeBal_movements, getOrCreate_movements]
  · rw [writeBal_transfers, getOrCreate_transfers]
  · rw [getBal_writeBal_self _ _ _ _ (getOrCreate_rows_mem _ _ _),
      getOrCreate_qty_self, hbase]
  · intro p' w' hpw
    have hne : (p', w') ≠ (p, w) := by
      intro hk
      exact hpw ⟨congrArg Prod.fst hk, congrArg Prod.snd hk⟩
    rw [getBal_writeBal_ne _ _ _ _ _ hne, getBal_getOrCreate]
    exact congrFun (congrFun hbase p') w'

/-- Rejection of an outcome that exceeds the balance (views.py lines 537-543):
the handler answers insufficient stock and the state is untouched. -/
theorem stockIncomeOutcome_insufficient (db : DB) (role : Role) (p w : Nat)
    (q : Int) (hrole : role ∈ stockRoles) (hvalid : movementValid db p w q)
    (hlt : getBal db p w < q) :
    stockIncomeOutcome db role p w .opOut q = (.insufficientStock, db) := by
  simp [stockIncomeOutcome, hrole, hvalid, hlt]

/-- The income/outcome handler either leaves the state unchanged or the three
guards of the success path hold. -/
theorem stockIncomeOutcome_cases (db : DB) (role : Role) (p w : Nat)
    (op : Operation) (q : Int) :
    (stockIncomeOutcome db role p w op q).2 = db ∨
    (role ∈ stockRoles ∧ movementValid db p w q ∧
      ¬(op = .opOut ∧ getBal db p w < q)) := by
  by_cases h1 : role ∈ stockRoles
  · by_cases h2 : movementValid db p w q
    · by_cases h3 : op = .opOut ∧ getBal db p w < q
      · left; simp [stockIncomeOutcome, h1, h2, h3]
      · right; exact ⟨h1, h2, h3⟩
    · left; simp [stockIncomeOutcome, h1, h2]
  · left; simp [stockIncomeOutcome, h1]

/-- Full behaviour of the transfer creation handler on the success path,
including the anomalous source = destination case in which the credited
write overwrites the debited one. -/
theorem stockTransferCreate_success (db : DB) (role : Role) (p fromW toW : Nat)
    (q : Int) (hrole : role ∈ transferRoles)
    (hvalid : transferValid db p fromW toW q)
    (hbal : ¬ getBal db p fromW < q) :
    (stockTransferCreate db role p fromW toW q).1 = .success ∧
    (stockTransferCreate db role p fromW toW q).2.movements = db.movements ∧
    (stockTransferCreate db role p fromW toW q).2.transfers
        = db.transfers ++ [⟨p, fromW, toW, q⟩] ∧
    getBal (stockTransferCreate db role p fromW toW q).2 p toW
        = getBal db p toW + q ∧
    (fromW ≠ toW →
      getBal (stockTransferCreate db role p fromW toW q).2 p fromW
        = getBal db p fromW - q) ∧
    ∀ p' w', ¬(p' = p ∧ w' = fromW) → ¬(p' = p ∧ w' = toW) →
      getBal (stockTransferCreate db role p fromW toW q).2 p' w'
        = getBal db p' w' := by
  have hbase : getBal { db with transfers := db.transfers ++ [⟨p, fromW, toW, q⟩] }
      = getBal db := rfl
  simp only [stockTransferCreate, if_pos hrole, if_pos hvalid, if_neg hbal]
  set db1 : DB := { db with transfers := db.transfers ++ [⟨p, fromW, toW, q⟩] } with hdb1
  have hvFrom : (getOrCreate db1 p fromW).qty (p, fromW) = getBal db p fromW := by
    rw [getOrCreate_qty_self]
    exact congrFun (congrFun hbase p) fromW
  have hvTo : (getOrCreate (getOrCreate db1 p fromW) p toW).qty (p, toW)
      = getBal db p toW := by
    rw [getOrCreate_qty_self, getBal_getOrCreate]
    exact congrFun (congrFun hbase p) toW
  have hToMem : (p, toW)
      ∈ (writeBal (getOrCreate (getOrCreate db1 p fromW) p toW)
          (p, fromW) ((getOrCreate db1 p fromW).qty (p, fromW) - q)).rows := by
    rw [writeBal_rows]
    exact getOrCreate_rows_mem _ _ _
  refine ⟨trivial, ?_, ?_, ?_, ?_, ?_⟩
  · rw [writeBal_movements, writeBal_movements, getOrCreate_movements,
      getOrCreate_movements]
  · rw [writeBal_transfers, writeBal_transfers, getOrCreate_transfers,
      getOrCreate_transfers]
  · rw [getBal_writeBal_self _ _ _ _ hToMem, hvTo]
  · intro hne
    have hkne : (p, fromW) ≠ (p, toW) := by
      intro hk; exact hne (congrArg Prod.snd hk)
    rw [getBal_writeBal_ne _ _ _ _ _ hkne,
      getBal_writeBal_self _ _ _ _ ?hmem, hvFrom]
    case hmem =>
      exact getOrCreate_rows_mono _ _ _ _ (getOrCreate_rows_mem _ _ _)
  · intro p' w' hfrom hto
    have hne1 : (p', w') ≠ (p, toW) := by
      intro hk
      exact hto ⟨congrArg Prod.fst hk, congrArg Prod.snd hk⟩
    have hne2 : (p', w') ≠ (p, fromW) := by
      intro hk
      exact hfrom ⟨congrArg Prod.fst hk, congrArg Prod.snd hk⟩
    rw [getBal_writeBal_ne _ _ _ _ _ hne1, getBal_writeBal_ne _ _ _ _ _ hne2,
      getBal_getOrCreate, getBal_getOrCreate]
    exact congrFun (congrFun hbase p') w'

/-- Rejection of a transfer that exceeds the source balance (views.py lines
736-741): the handler answers insufficient stock and the state is untouched. -/
theorem stockTransferCreate_insufficient (db : DB) (role : Role)
    (p fromW toW : Nat) (q : Int) (hrole : role ∈ transferRoles)
    (hvalid : transferValid db p fromW toW q)
    (hlt : getBal db p fromW < q) :
    stockTransferCreate db role p fromW toW q = (.insufficientStock, db) := by
  simp [stockTransferCreate, hrole, hvalid, hlt]

/-- The transfer creation handler either leaves the state unchanged or the
three guards of the success path hold. -/
theorem stockTransferCreate_cases (db : DB) (role : Role) (p fromW toW : Nat)
    (q : Int) :
    (stockTransferCreate db role p fromW toW q).2 = db ∨
    (role ∈ transferRoles ∧ transferValid db p fromW toW q ∧
      ¬ getBal db p fromW < q) := by
  by_cases h1 : role ∈ transferRoles
  · by_cases h2 : transferValid db p fromW toW q
    · by_cases h3 : getBal db p fromW < q
      · left; simp [stockTransferCreate, h1, h2, h3]
      · right; exact ⟨h1, h2, h3⟩
    · left; simp [stockTransferCreate, h1, h2]
  · left; simp [stockTransferCreate, h1]

/-- Transfer update never touches balance rows or quantities. -/
theorem stockTransferUpdate_rows_qty (db : DB) (role : Role) (idx : Nat)
    (p fromW toW : Nat) (q : Int) :
    (stockTransferUpdate db role idx p fromW toW q).2.rows = db.rows ∧
    (stockTransferUpdate db role idx p fromW toW q).2.qty = db.qty := by
  unfold stockTransferUpdate
  split
  · split
    · exact ⟨rfl, rfl⟩
    · split <;> exact ⟨rfl, rfl⟩
  · exact ⟨rfl, rfl⟩

/-- Transfer deletion never touches balance rows or quantities. -/
theorem stockTransferDelete_rows_qty (db : DB) (role : Role) (idx : Nat) :
    (stockTransferDelete db role idx).2.rows = db.rows ∧
    (stockTransferDelete db role idx).2.qty = db.qty := by
  unfold stockTransferDelete
  split
  · split <;> exact ⟨rfl, rfl⟩
  · exact ⟨rfl, rfl⟩

/-- Warehouse deletion either preserves a balance or removes its row. -/
theorem warehouseDelete_getBal (db : DB) (role : Role) (w p' w' : Nat) :
    getBal (warehouseDelete db role w).2 p' w' = getBal db p' w' ∨
    getBal (warehouseDelete db role w).2 p' w' = 0 := by
  unfold warehouseDelete
  split
  · split
    · unfold getBal
      simp only []
      by_cases hm : (p', w') ∈ db.rows.filter (fun r =>
          decide (r.2 ≠ w ∧ r.1 ∉ (db.products.filter
            (fun prod => prod.warehouse = some w)).map Product.pid))
      · left
        rw [if_pos hm, if_pos (List.mem_of_mem_filter hm)]
      · right
        rw [if_neg hm]
    · left; rfl
  · left; rfl

/-- The income/outcome handler truncated after its first k persistence
effects (1: StockMovement save, 2: get_or_create, 3: StockBalance save).
The view wraps its body in no transaction.atomic block, so each ORM save
commits on its own: an exception between two saves (caught by the blanket
except clause that answers 500) leaves exactly the effects executed so far
committed.  Truncation at k models a failure after effect k. -/
def stockIncomeOutcomeAt (db : DB) (role : Role) (p w : Nat) (op : Operation)
    (q : Int) (k : Nat) : DB :=
  if role ∈ stockRoles then
    if movementValid db p w q then
      if op = .opOut ∧ getBal db p w < q then db
      else
        let db1 := if 1 ≤ k
          then { db with movements := db.movements ++ [⟨p, w, op, q⟩] } else db
        let db2 := if 2 ≤ k then getOrCreate db1 p w else db1
        if 3 ≤ k then writeBal db2 (p, w) (applyOp op (db2.qty (p, w)) q) else db2
    else db
  else db

/-- The transfer creation handler truncated after its first k persistence
effects (1: StockTransfer save, 2: source get_or_create, 3: destination
get_or_create, 4: source balance save, 5: destination balance save).  As
with the income/outcome handler there is no transaction.atomic block, so a
failure between two saves leaves the earlier saves committed. -/
def stockTransferCreateAt (db : DB) (role : Role) (p fromW toW : Nat)
    (q : Int) (k : Nat) : DB :=
  if role ∈ transferRoles then
    if transferValid db p fromW toW q then
      if getBal db p fromW < q then db
      else
        let db1 := if 1 ≤ k
          then { db with transfers := db.transfers ++ [⟨p, fromW, toW, q⟩] } else db
        let db2 := if 2 ≤ k then getOrCreate db1 p fromW else db1
        let vFrom := db2.qty (p, fromW)
        let db3 := if 3 ≤ k then getOrCreate db2 p toW else db2
        let vTo := db3.qty (p, toW)
        let db4 := if 4 ≤ k then writeBal db3 (p, fromW) (vFrom - q) else db3
        if 5 ≤ k then writeBal db4 (p, toW) (vTo + q) else db4
    else db
  else db

/-- Running all three effects of the income/outcome handler is the handler. -/
theorem stockIncomeOutcomeAt_run (db : DB) (role : Role) (p w : Nat)
    (op : Operation) (q : Int) :
    stockIncomeOutcomeAt db role p w op q 3 = (stockIncomeOutcome db role p w op q).2 := by
  unfold stockIncomeOutcomeAt stockIncomeOutcome
  split
  · split
    · split
      · rfl
      · norm_num
    · rfl
  · rfl

/-- Running all five effects of the transfer creation handler is the handler. -/
theorem stockTransferCreateAt_run (db : DB) (role : Role) (p fromW toW : Nat)
    (q : Int) :
    stockTransferCreateAt db role p fromW toW q 5
      = (stockTransferCreate db role p fromW toW q).2 := by
  unfold stockTransferCreateAt stockTransferCreate
  split
  · split
    · split
      · rfl
      · norm_num
    · rfl
  · rfl

/-- Restricted step relation: stock income/outcome and transfer creation
between two distinct warehouses only. -/
inductive StepLedger : DB → DB → Prop where
  | incomeOutcome (db : DB) (role : Role) (p w : Nat) (op : Operation) (q : Int) :
      StepLedger db (stockIncomeOutcome db role p w op q).2
  | transferCreate (db : DB) (role : Role) (p fromW toW : Nat) (q : Int)
      (hne : fromW ≠ toW) :
      StepLedger db (stockTransferCreate db role p fromW toW q).2

/-- States reachable using only income/outcome and distinct-warehouse
transfer creation. -/
def ReachableLedger (db : DB) : Prop :=
  ∃ ps ws, Relation.ReflTransGen StepLedger (initDB ps ws) db

theorem nonNeg_initDB (ps : List Product) (ws : List Nat) :
    NonNeg (initDB ps ws) := by
  intro p w
  unfold getBal initDB
  simp

theorem consistent_initDB (ps : List Product) (ws : List Nat) :
    Consistent (initDB ps ws) := by
  intro p w
  unfold getBal ledgerNet movementSum transferOutSum transferInSum
    movementSumL transferOutSumL transferInSumL initDB
  simp

/-- Every API operation preserves non-negativity of all balances. -/
theorem nonNeg_stepAll (db db' : DB) (h : NonNeg db) (hs : StepAll db db') :
    NonNeg db' := by
  cases hs with
  | incomeOutcome role p w op q =>
    rcases stockIncomeOutcome_cases db role p w op q with heq | ⟨h1, h2, h3⟩
    · rwa [heq]
    · obtain ⟨-, -, -, hat, hother⟩ :=
        stockIncomeOutcome_success db role p w op q h1 h2 h3
      intro p' w'
      by_cases hpw : p' = p ∧ w' = w
      · obtain ⟨rfl, rfl⟩ := hpw
        rw [hat]
        obtain ⟨-, -, hq⟩ := h2
        have hb := h p' w'
        cases op with
        | opIn => simp only [applyOp]; omega
        | opOut =>
          have hnl : ¬ getBal db p' w' < q := fun hlt => h3 ⟨rfl, hlt⟩
          simp only [applyOp]; omega
        | opTransfer => simp only [applyOp]; exact hb
      · rw [hother p' w' hpw]; exact h p' w'
  | transferCreate role p fromW toW q =>
    rcases stockTransferCreate_cases db role p fromW toW q with heq | ⟨h1, h2, h3⟩
    · rwa [heq]
    · obtain ⟨-, -, -, hto, hfrom, hother⟩ :=
        stockTransferCreate_success db role p fromW toW q h1 h2 h3
      intro p' w'
      by_cases hpt : p' = p ∧ w' = toW
      · obtain ⟨rfl, rfl⟩ := hpt
        rw [hto]
        have hb := h p' w'
        obtain ⟨-, -, -, hq⟩ := h2
        omega
      · by_cases hpf : p' = p ∧ w' = fromW
        · obtain ⟨rfl, rfl⟩ := hpf
          have hne2 : w' ≠ toW := fun hfe => hpt ⟨rfl, hfe⟩
          rw [hfrom hne2]
          have hb := h p' w'
          omega
        · rw [hother p' w' hpf hpt]; exact h p' w'
  | transferUpdate role idx p fromW toW q =>
    intro p' w'
    obtain ⟨hr, hq⟩ := stockTransferUpdate_rows_qty db role idx p fromW toW q
    rw [getBal_congr _ _ hr hq]; exact h p' w'
  | transferDelete role idx =>
    intro p' w'
    obtain ⟨hr, hq⟩ := stockTransferDelete_rows_qty db role idx
    rw [getBal_congr _ _ hr hq]; exact h p' w'
  | warehouseDel role w =>
    intro p' w'
    rcases warehouseDelete_getBal db role w p' w' with he | he
    · rw [he]; exact h p' w'
    · rw [he]

/-- Every state reachable through the API has only non-negative balances. -/
theorem nonNeg_reachable (db : DB) (h : ReachableAll db) : NonNeg db := by
  obtain ⟨ps, ws, hsteps⟩ := h
  induction hsteps with
  | refl => exact nonNeg_initDB ps ws
  | tail hrest hstep ih => exact nonNeg_stepAll _ _ ih hstep

/-- Effect of appending one ledger entry on the accounted net quantity. -/
theorem ledgerNet_movements_append (db db' : DB) (mp mw : Nat) (mop : Operation)
    (mq : Int) (hm : db'.movements = db.movements ++ [⟨mp, mw, mop, mq⟩])
    (ht : db'.transfers = db.transfers) (p w : Nat) :
    ledgerNet db' p w = ledgerNet db p w
      + (if mp = p ∧ mw = w then opDelta mop mq else 0) := by
  unfold ledgerNet movementSum transferOutSum transferInSum
  rw [hm, ht, movementSumL_append, movementSumL_append]
  by_cases hp : mp = p <;> by_cases hw : mw = w <;>
    cases mop <;> simp [hp, hw, opDelta] <;> ring

/-- Effect of appending one transfer record on the accounted net quantity. -/
theorem ledgerNet_transfers_append (db db' : DB) (tp tf tt : Nat) (tq : Int)
    (hm : db'.movements = db.movements)
    (ht : db'.transfers = db.transfers ++ [⟨tp, tf, tt, tq⟩]) (p w : Nat) :
    ledgerNet db' p w = ledgerNet db p w
      - (if tp = p ∧ tf = w then tq else 0)
      + (if tp = p ∧ tt = w then tq else 0) := by
  unfold ledgerNet movementSum transferOutSum transferInSum
  rw [hm, ht, transferOutSumL_append, transferInSumL_append]
  by_cases hp : tp = p <;> by_cases hf : tf = w <;> by_cases htw : tt = w <;>
    simp [hp, hf, htw] <;> ring

/-- Income/outcome and distinct-warehouse transfer creation preserve the
agreement of every balance with the ledger and transfer history. -/
theorem consistent_stepLedger (db db' : DB) (h : Consistent db)
    (hs : StepLedger db db') : Consistent db' := by
  cases hs with
  | incomeOutcome role p w op q =>
    rcases stockIncomeOutcome_cases db role p w op q with heq | ⟨h1, h2, h3⟩
    · rwa [heq]
    · obtain ⟨-, hmov, htr, hat, hother⟩ :=
        stockIncomeOutcome_success db role p w op q h1 h2 h3
      intro p' w'
      rw [ledgerNet_movements_append db _ p w op q hmov htr p' w']
      by_cases hpw : p' = p ∧ w' = w
      · obtain ⟨rfl, rfl⟩ := hpw
        rw [hat, h p' w', if_pos (⟨rfl, rfl⟩ : p' = p' ∧ w' = w')]
        cases op <;> (simp [applyOp, opDelta]; try ring)
      · have hsym : ¬(p = p' ∧ w = w') := by
          intro hk
          exact hpw ⟨hk.1.symm, hk.2.symm⟩
        rw [hother p' w' hpw, h p' w', if_neg hsym, add_zero]
  | transferCreate role p fromW toW q hne =>
    rcases stockTransferCreate_cases db role p fromW toW q with heq | ⟨h1, h2, h3⟩
    · rwa [heq]
    · obtain ⟨-, hmov, htr, hto, hfrom, hother⟩ :=
        stockTransferCreate_success db role p fromW toW q h1 h2 h3
      intro p' w'
      rw [ledgerNet_transfers_append db _ p fromW toW q hmov htr p' w']
      by_cases hpt : p' = p ∧ w' = toW
      · obtain ⟨rfl, rfl⟩ := hpt
        have hc1 : ¬(p' = p' ∧ fromW = w') := fun hk => hne hk.2
        rw [hto, h p' w', if_neg hc1, if_pos (⟨rfl, rfl⟩ : p' = p' ∧ w' = w')]
        ring
      · by_cases hpf : p' = p ∧ w' = fromW
        · obtain ⟨rfl, rfl⟩ := hpf
          have hc2 : ¬(p' = p' ∧ toW = w') := fun hk => hne hk.2.symm
          rw [hfrom hne, h p' w', if_pos (⟨rfl, rfl⟩ : p' = p' ∧ w' = w'),
            if_neg hc2]
          ring
        · have hs1 : ¬(p = p' ∧ fromW = w') := by
            intro hk
            exact hpf ⟨hk.1.symm, hk.2.symm⟩
          have hs2 : ¬(p = p' ∧ toW = w') := by
            intro hk
            exact hpt ⟨hk.1.symm, hk.2.symm⟩
          rw [hother p' w' hpf hpt, h p' w', if_neg hs1, if_neg hs2]
          ring

/-- Balances agree with the ledger in every state reachable by income/outcome
and distinct-warehouse transfer creation. -/
theorem consistent_reachableLedger (db : DB) (h : ReachableLedger db) :
    Consistent db := by
  obtain ⟨ps, ws, hsteps⟩ := h
  induction hsteps with
  | refl => exact consistent_initDB ps ws
  | tail hrest hstep ih => exact consistent_stepLedger _ _ ih hstep

theorem getOrCreate_rows (db : DB) (p w : Nat) :
    (getOrCreate db p w).rows
      = if (p, w) ∈ db.rows then db.rows else (p, w) :: db.rows := by
  unfold getOrCreate
  split <;> rfl

/-- Inventory record fields relevant to the discrepancy computation
(warehouse/models.py): recorded and actual quantities are
PositiveIntegerFields, discrepancy is a signed IntegerField. -/
structure Inventory where
  recorded_quantity : Nat
  actual_quantity : Nat
  discrepancy : Int
deriving DecidableEq, Repr

/-- Inventory.save (warehouse/models.py lines 307-309): every save overwrites
discrepancy with actual_quantity - recorded_quantity before persisting. -/
def inventorySave (inv : Inventory) : Inventory :=
  { inv with
    discrepancy := (inv.actual_quantity : Int) - (inv.recorded_quantity : Int) }

/-- The view.action values the HasRole permission branches on: the four DRF
actions of each kind, and one constructor for any other action string
(patchUpdate stands for the DRF partial_update action). -/
inductive ViewAction where
  | list
  | retrieve
  | create
  | update
  | patchUpdate
  | destroy
  | unknownAction
deriving DecidableEq, Repr

/-- HasRole.has_permission (api/permissions.py lines 7-31): unauthenticated
requesters are refused, superusers pass, then the role is checked against a
read list for list/retrieve and a write list for
create/update/partial_update/destroy; any other action is refused. -/
def hasRole (isAuth isSuper : Bool) (role : Role) (action : ViewAction) : Bool :=
  if !isAuth then false
  else if isSuper then true
  else match action with
    | .list | .retrieve =>
        decide (role ∈ ([.admin, .warehouse_manager, .clerk, .logistician,
          .analyst] : List Role))
    | .create | .update | .patchUpdate | .destroy =>
        decide (role ∈ ([.admin, .warehouse_manager, .clerk,
          .logistician] : List Role))
    | .unknownAction => false

/-- Shared concrete run: one product (id 1, warehouse 1, min_stock 0), two
warehouses, and an income of 20 for product 1 at warehouse 1. -/
def psDemo : List Product := [⟨1, some 1, 0⟩]

/-- Warehouse catalogue of the shared concrete run. -/
def wsDemo : List Nat := [1, 2]

/-- State after the income of 20: balance 20 at (1, 1). -/
def dbDemo : DB :=
  (stockIncomeOutcome (initDB psDemo wsDemo) .admin 1 1 .opIn 20).2

/-- After a transfer of 5 from warehouse 1 to 2 on top of the demo state. -/
def dbDemoT : DB := (stockTransferCreate dbDemo .admin 1 1 2 5).2

/-- After deleting that transfer record again. -/
def dbDemoTD : DB := (stockTransferDelete dbDemoT .admin 0).2

/-- Scenario C state: product with min_stock 10, income 12 then outcome 5,
leaving balance 7. -/
def dbScenC : DB :=
  (stockIncomeOutcome
    (stockIncomeOutcome (initDB [⟨1, some 1, 10⟩] [1]) .admin 1 1 .opIn 12).2
    .admin 1 1 .opOut 5).2

/-- Boundary state for the low-stock scan: min_stock 10 and balance 10. -/
def dbBoundary : DB :=
  (stockIncomeOutcome (initDB [⟨1, some 1, 10⟩] [1]) .admin 1 1 .opIn 10).2

/-- C1: an outcome or transfer whose quantity exceeds the available balance is
rejected as insufficient stock with the whole state unchanged (hence no
ledger or transfer entry and no balance change), and every state reachable
through the API operations has only non-negative balances. -/
theorem claim_C1 :
    (∀ db role p w q, role ∈ stockRoles → movementValid db p w q →
      getBal db p w < q →
      stockIncomeOutcome db role p w .opOut q = (.insufficientStock, db)) ∧
    (∀ db role p fromW toW q, role ∈ transferRoles →
      transferValid db p fromW toW q → getBal db p fromW < q →
      stockTransferCreate db role p fromW toW q = (.insufficientStock, db)) ∧
    (∀ db, ReachableAll db → NonNeg db) := by
  refine ⟨?_, ?_, ?_⟩
  · intro db role p w q h1 h2 h3
    exact stockIncomeOutcome_insufficient db role p w q h1 h2 h3
  · intro db role p fromW toW q h1 h2 h3
    exact stockTransferCreate_insufficient db role p fromW toW q h1 h2 h3
  · intro db h
    exact nonNeg_reachable db h

/-- C1 witness: scenario A (balance 20, outcome 25 rejected; transfer 25
rejected) and non-negativity of a concrete reachable balance. -/
theorem claim_C1_witness :
    stockIncomeOutcome dbDemo .admin 1 1 .opOut 25 = (.insufficientStock, dbDemo) ∧
    stockTransferCreate dbDemo .admin 1 1 2 25 = (.insufficientStock, dbDemo) ∧
    0 ≤ getBal dbDemo 1 1 := by
  have hr : ReachableAll dbDemo :=
    ⟨psDemo, wsDemo,
      Relation.ReflTransGen.head (StepAll.incomeOutcome _ .admin 1 1 .opIn 20)
        Relation.ReflTransGen.refl⟩
  exact ⟨claim_C1.1 dbDemo .admin 1 1 25 (by decide) (by decide) (by decide),
    claim_C1.2.1 dbDemo .admin 1 1 2 25 (by decide) (by decide) (by decide),
    claim_C1.2.2 dbDemo hr 1 1⟩

/-- C2 counterexample: income 20, transfer 5 away, then delete the transfer
record; the state is reachable through the listed API operations, yet the
balance is 15 while the movement and transfer history accounts for 20,
because transfer deletion removes the record without restoring balances. -/
theorem claim_C2_counterexample :
    ReachableAll dbDemoTD ∧ getBal dbDemoTD 1 1 = 15
      ∧ ledgerNet dbDemoTD 1 1 = 20 := by
  refine ⟨⟨psDemo, wsDemo, ?_⟩, by decide, by decide⟩
  exact Relation.ReflTransGen.head (StepAll.incomeOutcome _ .admin 1 1 .opIn 20)
    (Relation.ReflTransGen.head (StepAll.transferCreate _ .admin 1 1 2 5)
      (Relation.ReflTransGen.head (StepAll.transferDelete _ .admin 0)
        Relation.ReflTransGen.refl))

/-- C2 amended: in every state reachable using only stock income/outcome and
transfer creation between two distinct warehouses, every balance equals the
income sum minus the outcome sum, minus transfers out plus transfers in. -/
theorem claim_C2_amended (db : DB) (h : ReachableLedger db) (p w : Nat) :
    getBal db p w = ledgerNet db p w :=
  consistent_reachableLedger db h p w

/-- C2 witness: the invariant instantiated on the state after income 20 and a
transfer of 5 from warehouse 1 to warehouse 2. -/
theorem claim_C2_witness :
    getBal dbDemoT 1 1 = ledgerNet dbDemoT 1 1 ∧
    getBal dbDemoT 1 2 = ledgerNet dbDemoT 1 2 := by
  have hr : ReachableLedger dbDemoT :=
    ⟨psDemo, wsDemo,
      Relation.ReflTransGen.head (StepLedger.incomeOutcome _ .admin 1 1 .opIn 20)
        (Relation.ReflTransGen.head
          (StepLedger.transferCreate _ .admin 1 1 2 5 (by decide))
          Relation.ReflTransGen.refl)⟩
  exact ⟨claim_C2_amended dbDemoT hr 1 1, claim_C2_amended dbDemoT hr 1 2⟩

/-- C3: the handlers run without transaction management, so a failure between
two saves commits a partial state.  A failure right after the StockMovement
save of an income of 20 leaves the ledger entry committed with the balance
still 20 instead of 40; a failure after the source save of a transfer of 15
leaves the source debited to 5 and the transfer recorded while the
destination still holds 0. -/
theorem claim_C3 :
    ((stockIncomeOutcomeAt dbDemo .admin 1 1 .opIn 20 1).movements
        = dbDemo.movements ++ [⟨1, 1, .opIn, 20⟩] ∧
      getBal (stockIncomeOutcomeAt dbDemo .admin 1 1 .opIn 20 1) 1 1 = 20 ∧
      getBal dbDemo 1 1 = 20) ∧
    (getBal (stockTransferCreateAt dbDemo .admin 1 1 2 15 4) 1 1 = 5 ∧
      getBal (stockTransferCreateAt dbDemo .admin 1 1 2 15 4) 1 2 = 0 ∧
      (stockTransferCreateAt dbDemo .admin 1 1 2 15 4).transfers
        = dbDemo.transfers ++ [⟨1, 1, 2, 15⟩]) := by
  decide

/-- C4: a transfer of q between two distinct warehouses with source balance
B at least q succeeds, debits the source to B - q, credits the destination
by q (its row defaulting to 0 when absent), and appends exactly one transfer
record for (product, source, destination, q). -/
theorem claim_C4 (db : DB) (role : Role) (p w1 w2 : Nat) (q B : Int)
    (hrole : role ∈ transferRoles) (hvalid : transferValid db p w1 w2 q)
    (hne : w1 ≠ w2) (hB : getBal db p w1 = B) (hq : q ≤ B) :
    (stockTransferCreate db role p w1 w2 q).1 = .success ∧
    getBal (stockTransferCreate db role p w1 w2 q).2 p w1 = B - q ∧
    getBal (stockTransferCreate db role p w1 w2 q).2 p w2
      = getBal db p w2 + q ∧
    (stockTransferCreate db role p w1 w2 q).2.transfers
      = db.transfers ++ [⟨p, w1, w2, q⟩] := by
  have hnl : ¬ getBal db p w1 < q := by omega
  obtain ⟨hres, hmov, htr, hto, hfrom, hother⟩ :=
    stockTransferCreate_success db role p w1 w2 q hrole hvalid hnl
  refine ⟨hres, ?_, hto, htr⟩
  rw [hfrom hne, hB]

/-- C4 witness: scenario B, balance 20 at warehouse 1, transfer of 15 to
warehouse 2 yields balances 5 and 15. -/
theorem claim_C4_witness :
    (stockTransferCreate dbDemo .admin 1 1 2 15).1 = .success ∧
    getBal (stockTransferCreate dbDemo .admin 1 1 2 15).2 1 1 = 5 ∧
    getBal (stockTransferCreate dbDemo .admin 1 1 2 15).2 1 2 = 15 := by
  have h := claim_C4 dbDemo .admin 1 1 2 15 20 (by decide) (by decide)
    (by decide) (by decide) (by decide)
  refine ⟨h.1, ?_, ?_⟩
  · rw [h.2.1]; decide
  · rw [h.2.2.1]; decide

/-- C5 counterexample: with balance equal to min_stock (10), the predicate of
the claim (balance at most min_stock) holds, yet the low-stock scan reports
nothing, because LowStockView compares with a strict less-than. -/
theorem claim_C5_counterexample :
    getBal dbBoundary 1 1 = 10 ∧ (getBal dbBoundary 1 1
      ≤ ((10 : Nat) : Int)) ∧ lowStockScan dbBoundary none = [] := by
  decide

/-- C5 amended: the bulk scan reports exactly the products (optionally
filtered by warehouse) whose balance at their own warehouse is strictly
below min_stock, products without a warehouse being skipped; in particular
the scenario C product with min_stock 10 and balance 7 is reported. -/
theorem claim_C5_amended :
    (∀ db wf x, x ∈ lowStockScan db wf ↔
      ∃ prod ∈ db.products, prod.pid = x ∧
        (∀ w0, wf = some w0 → prod.warehouse = some w0) ∧
        ∃ w, prod.warehouse = some w ∧
          getBal db prod.pid w < (prod.min_stock : Int)) ∧
    1 ∈ lowStockScan dbScenC none := by
  constructor
  · intro db wf x
    unfold lowStockScan
    rw [List.mem_filterMap]
    constructor
    · rintro ⟨prod, hmem, hmap⟩
      rw [List.mem_filter] at hmem
      obtain ⟨hmem, hflt⟩ := hmem
      cases hw : prod.warehouse with
      | none => rw [hw] at hmap; cases hmap
      | some w =>
        rw [hw] at hmap
        dsimp only at hmap
        by_cases hlow : getBal db prod.pid w < (prod.min_stock : Int)
        · rw [if_pos hlow] at hmap
          obtain rfl := Option.some.inj hmap
          refine ⟨prod, hmem, rfl, ?_, w, hw, hlow⟩
          intro w0 hwf
          rw [hwf] at hflt
          simpa using hflt
        · rw [if_neg hlow] at hmap; cases hmap
    · rintro ⟨prod, hmem, rfl, hfilter, w, hw, hlow⟩
      refine ⟨prod, ?_, ?_⟩
      · rw [List.mem_filter]
        refine ⟨hmem, ?_⟩
        cases wf with
        | none => rfl
        | some w0 => simpa using hfilter w0 rfl
      · rw [hw]
        dsimp only
        rw [if_pos hlow]
  · decide

/-- C5 witness: the characterisation instantiated on the scenario C state. -/
theorem claim_C5_witness :
    1 ∈ lowStockScan dbScenC none ↔
      ∃ prod ∈ dbScenC.products, prod.pid = 1 ∧
        (∀ w0, (none : Option Nat) = some w0 → prod.warehouse = some w0) ∧
        ∃ w, prod.warehouse = some w ∧
          getBal dbScenC prod.pid w < (prod.min_stock : Int) :=
  claim_C5_amended.1 dbScenC none 1

/-- C6 counterexample: a transfer whose source equals its destination is not
rejected by validation; it passes all checks, mutates balances and ends with
the source/destination balance increased by the quantity (20 to 25). -/
theorem claim_C6_counterexample :
    (stockTransferCreate dbDemo .admin 1 1 1 5).1 = .success ∧
    getBal (stockTransferCreate dbDemo .admin 1 1 1 5).2 1 1 = 25 := by
  decide

/-- C6 amended: the serializer validates quantity at least 1 before any
balance is read or mutated, but nothing validates source distinct from
destination: a self-transfer with sufficient balance succeeds and leaves
that balance increased by the quantity. -/
theorem claim_C6_amended :
    (∀ db role p fromW toW q, role ∈ transferRoles → q < 1 →
      stockTransferCreate db role p fromW toW q = (.validationError, db)) ∧
    (∀ db role p w q, role ∈ transferRoles → transferValid db p w w q →
      q ≤ getBal db p w →
      (stockTransferCreate db role p w w q).1 = .success ∧
      getBal (stockTransferCreate db role p w w q).2 p w
        = getBal db p w + q) := by
  constructor
  · intro db role p fromW toW q h1 h2
    have hnv : ¬ transferValid db p fromW toW q := by
      intro hv
      have := hv.2.2.2
      omega
    simp [stockTransferCreate, h1, hnv]
  · intro db role p w q h1 h2 h3
    have hnl : ¬ getBal db p w < q := by omega
    obtain ⟨hres, -, -, hto, -, -⟩ :=
      stockTransferCreate_success db role p w w q h1 h2 hnl
    exact ⟨hres, hto⟩

/-- C6 witness: a zero-quantity transfer is rejected by validation with no
state change, and the concrete self-transfer of 5 on balance 20 succeeds
and yields 25. -/
theorem claim_C6_witness :
    stockTransferCreate dbDemo .admin 1 1 2 0 = (.validationError, dbDemo) ∧
    (stockTransferCreate dbDemo .admin 1 1 1 5).1 = .success ∧
    getBal (stockTransferCreate dbDemo .admin 1 1 1 5).2 1 1
      = getBal dbDemo 1 1 + 5 := by
  have h2 := claim_C6_amended.2 dbDemo .admin 1 1 5 (by decide) (by decide)
    (by decide)
  exact ⟨claim_C6_amended.1 dbDemo .admin 1 1 2 0 (by decide) (by decide),
    h2.1, h2.2⟩

/-- C7: every save recomputes discrepancy as actual minus recorded, the
recomputation is idempotent, and any caller-supplied discrepancy value is
ignored. -/
theorem claim_C7 :
    (∀ inv : Inventory, (inventorySave inv).discrepancy
        = (inv.actual_quantity : Int) - (inv.recorded_quantity : Int)) ∧
    (∀ inv : Inventory, inventorySave (inventorySave inv) = inventorySave inv) ∧
    (∀ (inv : Inventory) (d : Int),
      inventorySave { inv with discrepancy := d } = inventorySave inv) :=
  ⟨fun _ => rfl, fun _ => rfl, fun _ _ => rfl⟩

/-- C8 counterexample: the write branch of HasRole also admits the
logistician role, and a non-superuser admin is refused on an unrecognised
action, refuting the claimed exact write set and the unconditional admin
allowance. -/
theorem claim_C8_counterexample :
    hasRole true false .logistician .create = true ∧
    hasRole true false .admin .unknownAction = false := by
  decide

/-- C8 amended: unauthenticated requesters are always refused; superusers are
always allowed; for list/retrieve exactly admin, warehouse_manager, clerk,
logistician and analyst are allowed; for create/update/partial_update/destroy
exactly admin, warehouse_manager, clerk and logistician are allowed; every
other action is refused for every non-superuser role. -/
theorem claim_C8_amended :
    (∀ s r a, hasRole false s r a = false) ∧
    (∀ r a, hasRole true true r a = true) ∧
    (∀ r a, (a = .list ∨ a = .retrieve) →
      (hasRole true false r a = true ↔
        r ∈ ([.admin, .warehouse_manager, .clerk, .logistician,
          .analyst] : List Role))) ∧
    (∀ r a, (a = .create ∨ a = .update ∨ a = .patchUpdate ∨ a = .destroy) →
      (hasRole true false r a = true ↔
        r ∈ ([.admin, .warehouse_manager, .clerk,
          .logistician] : List Role))) ∧
    (∀ r, hasRole true false r .unknownAction = false) := by
  refine ⟨?_, ?_, ?_, ?_, ?_⟩
  · intro s r a; rfl
  · intro r a; rfl
  · intro r a ha
    rcases ha with rfl | rfl <;> cases r <;> decide
  · intro r a ha
    rcases ha with rfl | rfl | rfl | rfl <;> cases r <;> decide
  · intro r; rfl

/-- C8 witness: one concrete instance of each clause of the amended
authorisation table. -/
theorem claim_C8_witness :
    hasRole false false .admin .list = false ∧
    hasRole true true .analyst .destroy = true ∧
    (hasRole true false .clerk .retrieve = true ↔
      Role.clerk ∈ ([.admin, .warehouse_manager, .clerk, .logistician,
        .analyst] : List Role)) ∧
    (hasRole true false .analyst .create = true ↔
      Role.analyst ∈ ([.admin, .warehouse_manager, .clerk,
        .logistician] : List Role)) ∧
    hasRole true false .warehouse_manager .unknownAction = false :=
  ⟨claim_C8_amended.1 false .admin .list,
    claim_C8_amended.2.1 .analyst .destroy,
    claim_C8_amended.2.2.1 .clerk .retrieve (Or.inr rfl),
    claim_C8_amended.2.2.2.1 .analyst .create (Or.inl rfl),
    claim_C8_amended.2.2.2.2 .warehouse_manager⟩

/-- C9: a warehouse delete request by any requester whose role is not admin
is refused as permission denied and the whole state, including the audit
log, is returned unchanged. -/
theorem claim_C9 (db : DB) (role : Role) (w : Nat) (h : role ≠ .admin) :
    warehouseDelete db role w = (.permissionDenied, db) := by
  simp [warehouseDelete, h]

/-- C9 witness: a clerk attempting to delete warehouse 1 of the demo state. -/
theorem claim_C9_witness :
    warehouseDelete dbDemo .clerk 1 = (.permissionDenied, dbDemo) :=
  claim_C9 dbDemo .clerk 1 (by decide)

/-- C10: the income/outcome endpoint accepts the third operation value
transfer; such a request creates the ledger entry, leaves every balance
unchanged and at most lazily creates the all-zero balance row. -/
theorem claim_C10 (db : DB) (role : Role) (p w : Nat) (q : Int)
    (hrole : role ∈ stockRoles) (hvalid : movementValid db p w q) :
    (stockIncomeOutcome db role p w .opTransfer q).1 = .success ∧
    (stockIncomeOutcome db role p w .opTransfer q).2.movements
      = db.movements ++ [⟨p, w, .opTransfer, q⟩] ∧
    (stockIncomeOutcome db role p w .opTransfer q).2.transfers
      = db.transfers ∧
    (∀ p' w', getBal (stockIncomeOutcome db role p w .opTransfer q).2 p' w'
      = getBal db p' w') ∧
    (stockIncomeOutcome db role p w .opTransfer q).2.rows
      = (if (p, w) ∈ db.rows then db.rows else (p, w) :: db.rows) := by
  have hns : ¬(Operation.opTransfer = .opOut ∧ getBal db p w < q) :=
    fun hk => by cases hk.1
  obtain ⟨hres, hmov, htr, hat, hother⟩ :=
    stockIncomeOutcome_success db role p w .opTransfer q hrole hvalid hns
  refine ⟨hres, hmov, htr, ?_, ?_⟩
  · intro p' w'
    by_cases hpw : p' = p ∧ w' = w
    · obtain ⟨rfl, rfl⟩ := hpw
      rw [hat]
      rfl
    · exact hother p' w' hpw
  · simp only [stockIncomeOutcome, if_pos hrole, if_pos hvalid, if_neg hns]
    rw [writeBal_rows, getOrCreate_rows]

/-- C10 witness: a transfer-operation movement of 5 on the demo state
succeeds, appends the ledger entry, and leaves balance (1, 1) at 20. -/
theorem claim_C10_witness :
    (stockIncomeOutcome dbDemo .admin 1 1 .opTransfer 5).1 = .success ∧
    (stockIncomeOutcome dbDemo .admin 1 1 .opTransfer 5).2.movements
      = dbDemo.movements ++ [⟨1, 1, .opTransfer, 5⟩] ∧
    getBal (stockIncomeOutcome dbDemo .admin 1 1 .opTransfer 5).2 1 1
      = getBal dbDemo 1 1 := by
  have h := claim_C10 dbDemo .admin 1 1 5 (by decide) (by decide)
  exact ⟨h.1, h.2.1, h.2.2.2.1 1 1⟩

end WarehouseAPI
